import Mathlib

/-!
Shallow embedding of the project-scaffolding workflow of `c1tools`
(`src/c1tools/proj/__init__.py`) and proofs about it.

Conventions of the embedding:
* A directory is modelled as an association list `Dir = List (String × String)`
  of (file name, file content) pairs, in creation order.
* The working directory's subdirectory listing, and the download folder, are
  modelled as lists of names resp. `FSEntry` records.
* Fallible Python code is modelled with `Option`: `none` stands for an uncaught
  exception (e.g. `ValueError` from `max([])`).
* `time()` and `datetime.date.today()` are passed in explicitly (`now`,
  `dateIso`).
* Python string primitives are modelled character-wise (`str` indexing and
  slicing count characters, as does Lean's `String.drop`); `str.isdigit` is
  modelled for ASCII digits.
-/

/-- Python `s.startswith(p)`: `p` is a character-wise prefix of `s`. -/
def pyStartsWith (s p : String) : Bool := p.data.isPrefixOf s.data

/-- Python `s.endswith(p)`: `p` is a character-wise suffix of `s`. -/
def pyEndsWith (s p : String) : Bool := s.data.reverse.take p.data.length == p.data.reverse

/-- Python `s.isdigit()` (ASCII model): `s` is nonempty and all characters are digits. -/
def pyIsdigit (s : String) : Bool := !s.data.isEmpty && s.data.all (fun c => c.isDigit)

/-- Python `int(s)` for a decimal digit string `s`. -/
def decVal (s : String) : Nat := s.data.foldl (fun a c => a * 10 + (c.toNat - 48)) 0

/-- Python `max(l)` on a list of integers: the built-in folds `max` over the
list and raises `ValueError` on the empty list, modelled by `none`. -/
def pyMax : List Nat → Option Nat
  | [] => none
  | x :: xs => some (xs.foldl Nat.max x)

/-- Python format specifier `:02d`: decimal, zero-padded to at least two digits. -/
def pad2 (n : Nat) : String := if n < 10 then "0" ++ toString n else toString n

/-! ### Project-directory numbering (`generic_project`, lines 108-121)

`dirs` stands for the names of the subdirectories of `WORKDIR`
(`d for d in WORKDIR.iterdir() if d.is_dir()`). -/

/-- Line 108-110: `[d for d in WORKDIR.iterdir() if d.is_dir() and d.name.startswith(project_type)]`. -/
def existingProjectTypeDirs (dirs : List String) (projectType : String) : List String :=
  dirs.filter (fun d => pyStartsWith d projectType)

/-- Lines 112-114: `[int(d.name[2:]) for d in existing_project_type_dirs if d.name[2:].isdigit()]`.
Note the source drops the first TWO characters of the name (`d.name[2:]`),
not the first `len(project_type)` characters. -/
def existingProjectTypeNumbers (dirs : List String) (projectType : String) : List Nat :=
  ((existingProjectTypeDirs dirs projectType).filter (fun d => pyIsdigit (d.drop 2))).map
    (fun d => decVal (d.drop 2))

/-- Lines 111-117: the next sequence number. `none` models the uncaught
`ValueError` raised by `max([])` when directories with the prefix exist but
none of them contributes a numeric suffix. -/
def nextProjectTypeNumber (dirs : List String) (projectType : String) : Option Nat :=
  if !(existingProjectTypeDirs dirs projectType).isEmpty then
    (pyMax (existingProjectTypeNumbers dirs projectType)).map (fun m => m + 1)
  else some 1

/-- Line 118: `project_dir_name = f"..."` — the name of the directory that
`project_dir_path.mkdir(exist_ok=True)` then creates. -/
def projectDirName (dirs : List String) (projectType : String) : Option String :=
  (nextProjectTypeNumber dirs projectType).map (fun n => projectType ++ pad2 n)

/-- The claim C1's reading of the suffix rule (spec: "extract the numeric
suffix (characters after the prefix)"): drops `len(project_type)` characters
instead of the source's hard-coded two. Kept only to compare with
`existingProjectTypeNumbers`. -/
def existingProjectTypeNumbersClaimed (dirs : List String) (projectType : String) : List Nat :=
  ((existingProjectTypeDirs dirs projectType).filter
      (fun d => pyIsdigit (d.drop projectType.length))).map
    (fun d => decVal (d.drop projectType.length))

/-- Next sequence number under the claim C1's suffix rule. -/
def nextProjectTypeNumberClaimed (dirs : List String) (projectType : String) : Option Nat :=
  if !(existingProjectTypeDirs dirs projectType).isEmpty then
    (pyMax (existingProjectTypeNumbersClaimed dirs projectType)).map (fun m => m + 1)
  else some 1

/-- Directory name produced under the claim C1's suffix rule. -/
def projectDirNameClaimed (dirs : List String) (projectType : String) : Option String :=
  (nextProjectTypeNumberClaimed dirs projectType).map (fun n => projectType ++ pad2 n)

/-! ### Download folder (`download_dir`, `get_latest_downloads`, lines 36-47) -/

/-- A filesystem entry of the download folder: its name, its modification time
(`st_mtime`, in seconds), whether it is a directory, and its content (for a
directory: its whole recursive content, abstracted as one value). -/
structure FSEntry where
  name : String
  mtime : Int
  isDir : Bool
  content : String
deriving DecidableEq

/-- `download_dir()` (lines 36-39): the localized folder name when
`Path.home().joinpath("Téléchargements").exists()`, else the default one.
`telechExists` models that existence test. -/
def download_dir (telechExists : Bool) : String :=
  if telechExists then "Téléchargements" else "Downloads"

/-- `get_latest_downloads` (lines 42-47): keep the entries whose `st_mtime` is
at least `time() - max_age_in_minutes * 60`, then sort by `st_mtime`,
most recent first (`sorted(..., key=mtime, reverse=True)`; both the Python
sort and `mergeSort` are stable). `folder` is the entry list of the download
folder (`download_dir().glob("*")`) and `now` models `time()`. -/
def get_latest_downloads (folder : List FSEntry) (now : Int) (maxAgeInMinutes : Int) :
    List FSEntry :=
  let filteredFiles := folder.filter (fun f => decide (now - maxAgeInMinutes * 60 ≤ f.mtime))
  filteredFiles.mergeSort (fun a b => decide (b.mtime ≤ a.mtime))

/-! ### Directories as association lists -/

/-- A directory: an association list of (file name, file content) pairs in
creation order. -/
abbrev Dir := List (String × String)

/-- Look up the content of the file named `n`. `isSome` models `Path.exists()`. -/
def dlookup (d : Dir) (n : String) : Option String :=
  match d with
  | [] => none
  | (m, c) :: rest => if m = n then some c else dlookup rest n

/-- The names of the entries of `d`. -/
def dnames (d : Dir) : List String := d.map Prod.fst

/-- `write_text` / file creation: replace the content of an existing file of
that name, else append a new entry. -/
def dwrite (d : Dir) (n c : String) : Dir :=
  if (dlookup d n).isSome then d.map (fun p => if p.1 = n then (n, c) else p)
  else d ++ [(n, c)]

/-- `Path.unlink()`: remove the entry named `n`. -/
def derase (d : Dir) (n : String) : Dir := d.filter (fun p => p.1 ≠ n)

/-! ### Harvest loop (`generic_project`, lines 126-145)

State: the download folder listing and the destination project directory. -/

/-- One iteration of the loop of lines 130-145 over a candidate `f`:
skip when a same-named entry exists in the destination (lines 132-135);
else move (`shutil.move`, removing the source, lines 137-139) or copy
(`shutil.copy2` for a file, `shutil.copytree` for a directory, lines 140-145). -/
def harvestOne (moveInsteadOfCopy : Bool) (st : List FSEntry × Dir) (f : FSEntry) :
    List FSEntry × Dir :=
  if (dlookup st.2 f.name).isSome then st
  else if moveInsteadOfCopy then
    (st.1.filter (fun g => g.name ≠ f.name), dwrite st.2 f.name f.content)
  else if !f.isDir then
    (st.1, dwrite st.2 f.name f.content)
  else
    (st.1, dwrite st.2 f.name f.content)

/-- The whole harvest loop over the candidate list (normally
`get_latest_downloads ...`), starting from the download folder listing and
the freshly created project directory. -/
def harvestDownloads (moveInsteadOfCopy : Bool) (cands : List FSEntry)
    (folder : List FSEntry) (dest : Dir) : List FSEntry × Dir :=
  cands.foldl (harvestOne moveInsteadOfCopy) (folder, dest)

/-! ### Markdown stub generation (`_create_md_files_for_pdfs`, lines 153-189) -/

/-- The interpolated template of lines 158-166 with `title` substituted for
both placeholders and `dateIso` for `datetime.date.today().isoformat()`. -/
def markdownStub (dateIso title : String) : String :=
  "---\ntitle: \"Rendu " ++ title ++ "\"\nauthor: \"Colin PROKOPOWICZ\"\ndate: \"" ++ dateIso
    ++ "\"\n---\n\n# " ++ title ++ "\n\n"

/-- The fixed stub-name tail, `"_rendu_Colin_PROKOPOWICZ" + ".md"`. -/
def renduSuffixMd : String := "_rendu_Colin_PROKOPOWICZ.md"

/-- Whether `destination.glob("*.pdf")` matches the name: ends with `.pdf`
and is not hidden (glob's `*` does not match a leading dot). -/
def isPdfName (n : String) : Bool := !(pyStartsWith n ".") && pyEndsWith n ".pdf"

/-- Line 168: the names matched by `destination.glob("*.pdf")`, in directory order. -/
def pdfFiles (d : Dir) : List String := (dnames d).filter isPdfName

/-- `Path.stem` for a name ending in `.pdf`: the name without that suffix. -/
def pdfStem (n : String) : String := n.dropRight 4

/-- Line 173: the fallback title `f"project..."` built from the fallback number. -/
def fallbackTitle (n : Nat) : String := "project" ++ pad2 n ++ "_rendu_Colin_PROKOPOWICZ"

/-- One iteration of the loop of lines 180-189 over a PDF name `p`: skip when
the stub already exists (lines 183-184), else write it (lines 186-188). -/
def stubStep (dateIso : String) (acc : Dir) (p : String) : Dir :=
  if (dlookup acc (pdfStem p ++ renduSuffixMd)).isSome then acc
  else dwrite acc (pdfStem p ++ renduSuffixMd) (markdownStub dateIso (pdfStem p))

/-- `_create_md_files_for_pdfs(fallback_project_type_number, destination)`
(lines 153-189). With no PDF in `dest` (lines 169-178) the single fallback
stub is written unconditionally (`write_text`, no existence check); else one
stub per PDF, skipping existing ones. -/
def create_md_files_for_pdfs (fallbackNumber : Nat) (dateIso : String) (dest : Dir) : Dir :=
  if (pdfFiles dest).isEmpty then
    dwrite dest (fallbackTitle fallbackNumber ++ ".md")
      (markdownStub dateIso (fallbackTitle fallbackNumber))
  else
    (pdfFiles dest).foldl (stubStep dateIso) dest

/-- The concrete destination directory of claim C7: exactly `a.pdf` and
`b.pdf`, with arbitrary contents. -/
def twoPdfDir (ca cb : String) : Dir := [("a.pdf", ca), ("b.pdf", cb)]

/-! ### `rendu` (lines 55-91) -/

/-- Whether `WORKDIR.glob("*_rendu_Colin_PROKOPOWICZ.md")` matches the name. -/
def isRenduMdName (n : String) : Bool :=
  !(pyStartsWith n ".") && pyEndsWith n renduSuffixMd

/-- Line 59: the markdown files of the working directory, in directory order. -/
def mdFilesOf (d : Dir) : List String := (dnames d).filter isRenduMdName

/-- `md_file.with_suffix(".pdf")` for a name ending in `.md`: replace the
3-character suffix `.md` by `.pdf`. -/
def withSuffixPdf (n : String) : String :=
  String.mk (n.data.take (n.data.length - 3)) ++ ".pdf"

/-- One iteration of the loop of lines 64-91 over a markdown file name:
when the companion PDF exists and `overwrite` is set, the PDF is unlinked
first (line 69) and only then pandoc runs; `conv md = some c` models pandoc
succeeding and producing content `c`, `none` models a `CalledProcessError`,
which is caught (line 90-91) so the loop continues. With the PDF existing and
`overwrite` unset the file is skipped (lines 70-72). -/
def renduStep (conv : String → Option String) (overwrite : Bool) (d : Dir) (mdName : String) :
    Dir :=
  if (dlookup d (withSuffixPdf mdName)).isSome then
    if overwrite then
      match conv mdName with
      | some c => dwrite (derase d (withSuffixPdf mdName)) (withSuffixPdf mdName) c
      | none => derase d (withSuffixPdf mdName)
    else d
  else
    match conv mdName with
    | some c => dwrite d (withSuffixPdf mdName) c
    | none => d

/-- The `rendu` command (lines 55-91): fold the per-file conversion over the
matching markdown files of the working directory (computed up front, line 59). -/
def rendu (conv : String → Option String) (overwrite : Bool) (d : Dir) : Dir :=
  (mdFilesOf d).foldl (renduStep conv overwrite) d

/-! ## Helper lemmas: Python `max` -/

theorem le_foldl_max (xs : List Nat) (x : Nat) : x ≤ xs.foldl Nat.max x := by
  induction xs generalizing x with
  | nil => exact Nat.le_refl x
  | cons y ys ih =>
    exact Nat.le_trans (Nat.le_max_left x y) (ih (Nat.max x y))

theorem mem_le_foldl_max (xs : List Nat) (x m : Nat) (hm : m ∈ xs) :
    m ≤ xs.foldl Nat.max x := by
  induction xs generalizing x with
  | nil => cases hm
  | cons y ys ih =>
    rcases List.mem_cons.mp hm with rfl | h
    · exact Nat.le_trans (Nat.le_max_right x m) (le_foldl_max ys (Nat.max x m))
    · exact ih (Nat.max x y) h

theorem foldl_max_mem (xs : List Nat) (x : Nat) : xs.foldl Nat.max x ∈ x :: xs := by
  induction xs generalizing x with
  | nil => exact List.mem_singleton.mpr rfl
  | cons y ys ih =>
    have h := ih (Nat.max x y)
    rcases List.mem_cons.mp h with he | hmem
    · rcases (show Nat.max x y = x ∨ Nat.max x y = y by
          rcases Nat.le_total x y with hxy | hyx
          · exact Or.inr (Nat.max_eq_right hxy)
          · exact Or.inl (Nat.max_eq_left hyx)) with hx | hy
      · rw [List.foldl_cons, he, hx]
        exact List.mem_cons_self _ _
      · rw [List.foldl_cons, he, hy]
        exact List.mem_cons_of_mem _ (List.mem_cons_self _ _)
    · exact List.mem_cons_of_mem _ (List.mem_cons_of_mem _ hmem)

theorem pyMax_eq_of_mem_ub (l : List Nat) (n : Nat) (hmem : n ∈ l)
    (hub : ∀ m ∈ l, m ≤ n) : pyMax l = some n := by
  cases l with
  | nil => cases hmem
  | cons x xs =>
    have h1 : xs.foldl Nat.max x ≤ n := hub _ (foldl_max_mem xs x)
    have h2 : n ≤ xs.foldl Nat.max x := by
      rcases List.mem_cons.mp hmem with rfl | h
      · exact le_foldl_max xs n
      · exact mem_le_foldl_max xs x n h
    simp only [pyMax, Option.some.injEq]
    exact Nat.le_antisymm h1 h2

theorem pyMax_eq_none_iff (l : List Nat) : pyMax l = none ↔ l = [] := by
  cases l <;> simp [pyMax]

/-! ## Claims C1 and C3: directory numbering -/

theorem existingProjectTypeNumbers_nil_of_dirs_nil (dirs : List String) (pt : String)
    (h : existingProjectTypeDirs dirs pt = []) : existingProjectTypeNumbers dirs pt = [] := by
  simp [existingProjectTypeNumbers, h]

/-- C1 counterexample. The claim predicts that for `projectType = "a"` and an
existing directory `a12`, the numeric suffix is `12` (the characters after the
prefix) so the next directory is `a13`; the source extracts `"a12"[2:] = "2"`
and creates `a03` instead. -/
theorem c1_suffix_cex :
    projectDirName ["a12"] "a" = some "a03" ∧
    projectDirNameClaimed ["a12"] "a" = some "a13" ∧
    projectDirName ["a12"] "a" ≠ projectDirNameClaimed ["a12"] "a" := by
  decide

/-- C1 (amended: the numeric suffix is the part of the directory name after its
first two characters — which coincides with the part after the prefix exactly
when `len(projectType) = 2` — rather than after the first `len(projectType)`
characters). `create` scans the working directory's subdirectories `dirs` for
names starting with `projectType`, keeps those whose character suffix after
position 2 is purely numeric, and creates `projectType ++ "01"` when no name
has the prefix, and `projectType ++ pad2 (NN+1)` when numeric suffixes exist,
`NN` being their maximum. -/
theorem c1_generic_project_next_dir (dirs : List String) (projectType : String)
    (hpt : projectType ≠ "") :
    (existingProjectTypeDirs dirs projectType = [] →
      projectDirName dirs projectType = some (projectType ++ "01")) ∧
    (∀ n, n ∈ existingProjectTypeNumbers dirs projectType →
      (∀ m ∈ existingProjectTypeNumbers dirs projectType, m ≤ n) →
      projectDirName dirs projectType = some (projectType ++ pad2 (n + 1))) := by
  constructor
  · intro h
    have h1 : pad2 1 = "01" := by decide
    simp [projectDirName, nextProjectTypeNumber, h, h1]
  · intro n hn hub
    have hne : existingProjectTypeDirs dirs projectType ≠ [] := by
      intro h
      rw [existingProjectTypeNumbers_nil_of_dirs_nil dirs projectType h] at hn
      cases hn
    have hmax := pyMax_eq_of_mem_ub _ n hn hub
    simp [projectDirName, nextProjectTypeNumber, hne, hmax]

theorem c1_generic_project_next_dir_witness :
    ("td" : String) ≠ "" ∧
    projectDirName ["td01", "td07", "notes"] "td" = some ("td" ++ pad2 (7 + 1)) := by
  refine ⟨by decide, ?_⟩
  exact (c1_generic_project_next_dir ["td01", "td07", "notes"] "td" (by decide)).2 7
    (by decide) (by decide)

/-- C3 counterexample. The claim says the next-number computation is total and
yields 1 when subdirectories with the prefix exist but none has a purely
numeric suffix. On `dirs = ["tdx"]`, `projectType = "td"`, the source reaches
`max([])`, which raises `ValueError` (modelled by `none`) instead of yielding 1. -/
theorem c3_raises_cex : nextProjectTypeNumber ["tdx"] "td" = none := by decide

/-- C3 (amended: the computation is not total — it raises `ValueError`, from
`max` of an empty list, exactly when directories starting with the prefix
exist but none of them has a purely numeric suffix after position 2; it yields
1 only when no subdirectory starts with the prefix, and max+1 otherwise). -/
theorem c3_next_number_partiality (dirs : List String) (projectType : String) :
    (nextProjectTypeNumber dirs projectType = none ↔
      existingProjectTypeDirs dirs projectType ≠ [] ∧
      existingProjectTypeNumbers dirs projectType = []) ∧
    (existingProjectTypeDirs dirs projectType = [] →
      nextProjectTypeNumber dirs projectType = some 1) := by
  constructor
  · by_cases h : existingProjectTypeDirs dirs projectType = []
    · simp [nextProjectTypeNumber, h]
    · simp only [nextProjectTypeNumber, h, List.isEmpty_iff, if_pos, ne_eq,
        not_false_eq_true, true_and]
      rw [if_pos (by simp [List.isEmpty_iff, h])]
      have hmap : ∀ (o : Option Nat) (f : Nat → Nat), o.map f = none ↔ o = none := by
        intro o f; cases o <;> simp
      rw [hmap, pyMax_eq_none_iff]
  · intro h
    simp [nextProjectTypeNumber, h]

theorem c3_next_number_partiality_witness :
    nextProjectTypeNumber [] "td" = some 1 :=
  (c3_next_number_partiality [] "td").2 rfl

/-! ## Claims C4 and C9: download harvesting -/

/-- C4 (confirmed). `get_latest_downloads` returns exactly the entries of the
download folder whose modification time is at least `now - maxAge * 60`
(as a permutation of the filtered folder, hence with multiplicity), ordered by
modification time, most recent first; and the folder consulted is the
localized `Téléchargements` folder when it exists, else `Downloads`. -/
theorem c4_download_selection (folder : List FSEntry) (now maxAge : Int) :
    (get_latest_downloads folder now maxAge).Perm
      (folder.filter (fun f => decide (now - maxAge * 60 ≤ f.mtime))) ∧
    (∀ e, e ∈ get_latest_downloads folder now maxAge ↔
      e ∈ folder ∧ now - maxAge * 60 ≤ e.mtime) ∧
    (get_latest_downloads folder now maxAge).Pairwise (fun a b => b.mtime ≤ a.mtime) ∧
    download_dir true = "Téléchargements" ∧ download_dir false = "Downloads" := by
  have hperm : (get_latest_downloads folder now maxAge).Perm
      (folder.filter (fun f => decide (now - maxAge * 60 ≤ f.mtime))) :=
    List.mergeSort_perm _ _
  refine ⟨hperm, ?_, ?_, rfl, rfl⟩
  · intro e
    rw [hperm.mem_iff, List.mem_filter]
    simp
  · have hs := @List.sorted_mergeSort FSEntry
      (fun a b : FSEntry => decide (b.mtime ≤ a.mtime))
      (fun a b c hab hbc => by
        simp only [decide_eq_true_iff] at *
        exact le_trans hbc hab)
      (fun a b => by
        simp only [Bool.or_eq_true, decide_eq_true_iff]
        exact Int.le_total b.mtime a.mtime)
      (folder.filter (fun f => decide (now - maxAge * 60 ≤ f.mtime)))
    exact hs.imp (fun h => by simpa using h)

theorem c4_download_selection_witness :
    (⟨"f", 70, false, "c"⟩ : FSEntry) ∈ get_latest_downloads [⟨"f", 70, false, "c"⟩] 100 5 :=
  ((c4_download_selection [⟨"f", 70, false, "c"⟩] 100 5).2.1 _).mpr
    ⟨by decide, by decide⟩

/-- C9 counterexample. The claim says harvesting with `downloadMaxAgeMinutes = 0`
selects no files for every folder state. A file whose modification time equals
`time()` (or lies in the future) satisfies `st_mtime >= time() - 0` and is
selected: here a folder with one entry of `mtime = now = 100`. -/
theorem c9_mtime_now_cex :
    (⟨"f", 100, false, "c"⟩ : FSEntry) ∈ get_latest_downloads [⟨"f", 100, false, "c"⟩] 100 0 := by
  have hperm : (get_latest_downloads [⟨"f", 100, false, "c"⟩] 100 0).Perm
      ([(⟨"f", 100, false, "c"⟩ : FSEntry)].filter
        (fun f => decide ((100 : Int) - 0 * 60 ≤ f.mtime))) :=
    List.mergeSort_perm _ _
  rw [hperm.mem_iff, List.mem_filter]
  exact ⟨by decide, by decide⟩

/-- C9 (amended: with `downloadMaxAgeMinutes = 0` the filter keeps exactly the
entries with `mtime ≥ now`, so no file is selected provided every entry of the
folder was modified strictly before the moment `time()` is read — the
practical situation the claim's boundary argument appeals to). -/
theorem c9_zero_age_selection (folder : List FSEntry) (now : Int)
    (h : ∀ f ∈ folder, f.mtime < now) :
    get_latest_downloads folder now 0 = [] := by
  have hfilter : folder.filter (fun f => decide (now - 0 * 60 ≤ f.mtime)) = [] := by
    rw [List.filter_eq_nil_iff]
    intro f hf
    have hlt := h f hf
    simp only [decide_eq_true_iff]
    omega
  have hperm : (get_latest_downloads folder now 0).Perm
      (folder.filter (fun f => decide (now - 0 * 60 ≤ f.mtime))) :=
    List.mergeSort_perm _ _
  rw [hfilter] at hperm
  exact hperm.eq_nil

theorem c9_zero_age_selection_witness :
    get_latest_downloads [⟨"f", 50, false, "c"⟩] 100 0 = [] :=
  c9_zero_age_selection [⟨"f", 50, false, "c"⟩] 100 (by decide)

/-! ## Helper lemmas: association-list directories -/

theorem dlookup_map_replace (d : Dir) (n c : String) (h : (dlookup d n).isSome) :
    dlookup (d.map (fun p => if p.1 = n then (n, c) else p)) n = some c := by
  induction d with
  | nil => simp [dlookup] at h
  | cons p rest ih =>
    obtain ⟨m, v⟩ := p
    rw [List.map_cons]
    by_cases hm : m = n
    · subst hm
      rw [if_pos (show (m, v).1 = m from rfl)]
      simp [dlookup]
    · rw [if_neg (show ¬((m, v).1 = n) from hm)]
      have h' : (dlookup rest n).isSome := by simpa [dlookup, hm] using h
      simp [dlookup, hm, ih h']

theorem dlookup_map_replace_ne (d : Dir) (n c m : String) (hm : m ≠ n) :
    dlookup (d.map (fun p => if p.1 = n then (n, c) else p)) m = dlookup d m := by
  induction d with
  | nil => rfl
  | cons p rest ih =>
    obtain ⟨k, v⟩ := p
    rw [List.map_cons]
    by_cases hk : k = n
    · subst hk
      rw [if_pos (show (k, v).1 = k from rfl)]
      simp only [dlookup, if_neg (Ne.symm hm)]
      exact ih
    · rw [if_neg (show ¬((k, v).1 = n) from hk)]
      simp only [dlookup]
      split
      · rfl
      · exact ih

theorem dlookup_append_some (d1 d2 : Dir) (n v : String) (h : dlookup d1 n = some v) :
    dlookup (d1 ++ d2) n = some v := by
  induction d1 with
  | nil => simp [dlookup] at h
  | cons p rest ih =>
    obtain ⟨m, c⟩ := p
    by_cases hm : m = n
    · subst hm
      simp only [dlookup, if_pos rfl] at h ⊢
      exact h
    · simp only [dlookup, if_neg hm, List.cons_append] at h ⊢
      exact ih h

theorem dlookup_append_none (d1 d2 : Dir) (n : String) (h : dlookup d1 n = none) :
    dlookup (d1 ++ d2) n = dlookup d2 n := by
  induction d1 with
  | nil => rfl
  | cons p rest ih =>
    obtain ⟨m, c⟩ := p
    by_cases hm : m = n
    · subst hm; simp [dlookup] at h
    · simp only [dlookup, if_neg hm, List.cons_append] at h ⊢
      exact ih h

theorem dlookup_dwrite_self (d : Dir) (n c : String) :
    dlookup (dwrite d n c) n = some c := by
  unfold dwrite
  by_cases h : (dlookup d n).isSome
  · rw [if_pos h]
    exact dlookup_map_replace d n c h
  · rw [if_neg h]
    have hn : dlookup d n = none := Option.not_isSome_iff_eq_none.mp h
    rw [dlookup_append_none d _ n hn]
    simp [dlookup]

theorem dlookup_dwrite_ne (d : Dir) (n c m : String) (hm : m ≠ n) :
    dlookup (dwrite d n c) m = dlookup d m := by
  unfold dwrite
  by_cases h : (dlookup d n).isSome
  · rw [if_pos h]
    exact dlookup_map_replace_ne d n c m hm
  · rw [if_neg h]
    cases hd : dlookup d m with
    | some v => exact dlookup_append_some _ _ _ _ hd
    | none =>
      rw [dlookup_append_none _ _ _ hd]
      simp [dlookup, Ne.symm hm]

theorem map_replace_of_none (d : Dir) (n c : String) (h : dlookup d n = none) :
    d.map (fun p => if p.1 = n then (n, c) else p) = d := by
  induction d with
  | nil => rfl
  | cons p rest ih =>
    obtain ⟨m, v⟩ := p
    by_cases hm : m = n
    · subst hm; simp [dlookup] at h
    · have h' : dlookup rest n = none := by simpa [dlookup, hm] using h
      simp [hm, ih h']

theorem map_replace_idem (d : Dir) (n c : String) :
    (d.map (fun p => if p.1 = n then (n, c) else p)).map
        (fun p => if p.1 = n then (n, c) else p)
      = d.map (fun p => if p.1 = n then (n, c) else p) := by
  rw [List.map_map]
  congr 1
  funext p
  by_cases h : p.1 = n
  · simp [h]
  · simp [h]

theorem dwrite_dwrite_same (d : Dir) (n c : String) :
    dwrite (dwrite d n c) n c = dwrite d n c := by
  by_cases h : (dlookup d n).isSome
  · have e1 : dwrite d n c = d.map (fun p => if p.1 = n then (n, c) else p) := by
      unfold dwrite; rw [if_pos h]
    have hs : (dlookup (d.map (fun p => if p.1 = n then (n, c) else p)) n).isSome := by
      rw [dlookup_map_replace d n c h]; rfl
    rw [e1]
    unfold dwrite
    rw [if_pos hs]
    exact map_replace_idem d n c
  · have hn : dlookup d n = none := Option.not_isSome_iff_eq_none.mp h
    have e1 : dwrite d n c = d ++ [(n, c)] := by
      unfold dwrite; rw [if_neg h]
    have hs : (dlookup (d ++ [(n, c)]) n).isSome := by
      rw [dlookup_append_none _ _ _ hn]; simp [dlookup]
    rw [e1]
    unfold dwrite
    rw [if_pos hs, List.map_append, map_replace_of_none d n c hn]
    simp

theorem dnames_dwrite_none (d : Dir) (n c : String) (h : dlookup d n = none) :
    dnames (dwrite d n c) = dnames d ++ [n] := by
  unfold dwrite
  rw [if_neg (by simp [h])]
  simp [dnames]

theorem dnames_dwrite_isSome (d : Dir) (n c : String) (h : (dlookup d n).isSome) :
    dnames (dwrite d n c) = dnames d := by
  unfold dwrite
  rw [if_pos h]
  unfold dnames
  rw [List.map_map]
  congr 1
  funext p
  by_cases hp : p.1 = n
  · simp [hp]
  · simp [hp]

theorem dlookup_derase_self (d : Dir) (n : String) : dlookup (derase d n) n = none := by
  induction d with
  | nil => rfl
  | cons p rest ih =>
    obtain ⟨m, v⟩ := p
    by_cases hm : m = n
    · subst hm; simpa [derase] using ih
    · simpa [derase, hm, dlookup] using ih

theorem dlookup_derase_ne (d : Dir) (n m : String) (hm : m ≠ n) :
    dlookup (derase d n) m = dlookup d m := by
  induction d with
  | nil => rfl
  | cons p rest ih =>
    obtain ⟨k, v⟩ := p
    unfold derase at ih ⊢
    rw [List.filter_cons]
    by_cases hk : k = n
    · subst hk
      rw [if_neg (by simp)]
      simp only [dlookup, if_neg (Ne.symm hm)]
      exact ih
    · rw [if_pos (by simp [hk])]
      simp only [dlookup]
      split
      · rfl
      · exact ih

/-! ## Helper lemmas: the harvest loop -/

theorem harvestOne_skip (move : Bool) (st : List FSEntry × Dir) (f : FSEntry)
    (h : (dlookup st.2 f.name).isSome) : harvestOne move st f = st := by
  unfold harvestOne
  rw [if_pos h]

theorem harvestOne_snd (move : Bool) (st : List FSEntry × Dir) (f : FSEntry) :
    (harvestOne move st f).2 =
      if (dlookup st.2 f.name).isSome then st.2 else dwrite st.2 f.name f.content := by
  unfold harvestOne
  split
  · rfl
  · split
    · rfl
    · split <;> rfl

theorem harvestOne_fst (move : Bool) (st : List FSEntry × Dir) (f : FSEntry) :
    (harvestOne move st f).1 =
      if (dlookup st.2 f.name).isSome then st.1
      else if move then st.1.filter (fun g => g.name ≠ f.name) else st.1 := by
  unfold harvestOne
  split
  · rfl
  · split
    · rfl
    · split <;> rfl

theorem harvest_preserves_existing (move : Bool) (cands : List FSEntry)
    (st : List FSEntry × Dir) (n v : String) (h : dlookup st.2 n = some v) :
    dlookup (cands.foldl (harvestOne move) st).2 n = some v := by
  induction cands generalizing st with
  | nil => simpa using h
  | cons f cs ih =>
    rw [List.foldl_cons]
    refine ih _ ?_
    rw [harvestOne_snd]
    by_cases hc : (dlookup st.2 f.name).isSome
    · rw [if_pos hc]; exact h
    · rw [if_neg hc]
      have hne : n ≠ f.name := by
        intro he
        apply hc
        rw [← he, h]
        rfl
      rw [dlookup_dwrite_ne _ _ _ _ hne]
      exact h

theorem harvest_writes_fresh (move : Bool) (cands : List FSEntry) (st : List FSEntry × Dir)
    (e : FSEntry) (he : e ∈ cands) (hfresh : dlookup st.2 e.name = none)
    (hnd : (cands.map FSEntry.name).Nodup) :
    dlookup (cands.foldl (harvestOne move) st).2 e.name = some e.content := by
  induction cands generalizing st with
  | nil => cases he
  | cons f cs ih =>
    rw [List.map_cons, List.nodup_cons] at hnd
    rw [List.foldl_cons]
    rcases List.mem_cons.mp he with rfl | hin
    · have hw : dlookup (harvestOne move st e).2 e.name = some e.content := by
        rw [harvestOne_snd, if_neg (by simp [hfresh])]
        exact dlookup_dwrite_self _ _ _
      exact harvest_preserves_existing move cs _ _ _ hw
    · have hne : e.name ≠ f.name := by
        intro hh
        exact hnd.1 (hh ▸ List.mem_map_of_mem FSEntry.name hin)
      refine ih _ hin ?_ hnd.2
      rw [harvestOne_snd]
      by_cases hc : (dlookup st.2 f.name).isSome
      · rw [if_pos hc]; exact hfresh
      · rw [if_neg hc, dlookup_dwrite_ne _ _ _ _ hne]; exact hfresh

theorem harvest_copy_keeps_folder (cands : List FSEntry) (st : List FSEntry × Dir) :
    (cands.foldl (harvestOne false) st).1 = st.1 := by
  induction cands generalizing st with
  | nil => rfl
  | cons f cs ih =>
    rw [List.foldl_cons, ih, harvestOne_fst]
    by_cases hc : (dlookup st.2 f.name).isSome
    · rw [if_pos hc]
    · rw [if_neg hc, if_neg (by simp)]

theorem harvest_folder_sub (move : Bool) (cands : List FSEntry) (st : List FSEntry × Dir)
    (g : FSEntry) (hg : g ∈ (cands.foldl (harvestOne move) st).1) : g ∈ st.1 := by
  induction cands generalizing st with
  | nil => simpa using hg
  | cons f cs ih =>
    rw [List.foldl_cons] at hg
    have hstep := ih _ hg
    rw [harvestOne_fst] at hstep
    by_cases hc : (dlookup st.2 f.name).isSome
    · rwa [if_pos hc] at hstep
    · rw [if_neg hc] at hstep
      by_cases hm : move = true
    
      · rw [if_pos hm] at hstep
        exact List.mem_of_mem_filter hstep
      · rwa [if_neg hm] at hstep

theorem harvest_move_removes (cands : List FSEntry) (st : List FSEntry × Dir)
    (e : FSEntry) (he : e ∈ cands) (hfresh : dlookup st.2 e.name = none)
    (hnd : (cands.map FSEntry.name).Nodup) :
    ∀ g ∈ (cands.foldl (harvestOne true) st).1, g.name ≠ e.name := by
  induction cands generalizing st with
  | nil => cases he
  | cons f cs ih =>
    rw [List.map_cons, List.nodup_cons] at hnd
    intro g hg
    rw [List.foldl_cons] at hg
    rcases List.mem_cons.mp he with rfl | hin
    · have hstep : (harvestOne true st e).1 = st.1.filter (fun g => g.name ≠ e.name) := by
        rw [harvestOne_fst, if_neg (by simp [hfresh]), if_pos rfl]
      have hsub := harvest_folder_sub true cs _ g hg
      rw [hstep] at hsub
      simpa using List.of_mem_filter hsub
    · have hne : e.name ≠ f.name := by
        intro hh
        exact hnd.1 (hh ▸ List.mem_map_of_mem FSEntry.name hin)
      have hfresh' : dlookup (harvestOne true st f).2 e.name = none := by
        rw [harvestOne_snd]
        by_cases hc : (dlookup st.2 f.name).isSome
        · rw [if_pos hc]; exact hfresh
        · rw [if_neg hc, dlookup_dwrite_ne _ _ _ _ hne]; exact hfresh
      exact ih _ hin hfresh' hnd.2 g hg

/-! ## Claims C5 and C6: move/copy semantics and skip-on-conflict -/

/-- C5 (confirmed). For a harvested candidate `e` whose name does not yet exist
in the destination (and candidate names are distinct, as entries of one
folder are): after the loop the destination holds `e`'s content under `e`'s
name; with `moveInsteadOfCopy = true` no entry of that name is left in the
download folder; with `moveInsteadOfCopy = false` the download folder is left
entirely intact, the destination receiving an identical copy (`copy2` for a
file, recursive `copytree` for a directory, both modelled as copying the
entry's content). -/
theorem c5_move_vs_copy (move : Bool) (cands folder : List FSEntry) (dest : Dir)
    (e : FSEntry) (he : e ∈ cands) (hfresh : dlookup dest e.name = none)
    (hnd : (cands.map FSEntry.name).Nodup) :
    dlookup (harvestDownloads move cands folder dest).2 e.name = some e.content ∧
    (∀ g ∈ (harvestDownloads true cands folder dest).1, g.name ≠ e.name) ∧
    (harvestDownloads false cands folder dest).1 = folder := by
  refine ⟨?_, ?_, ?_⟩
  · exact harvest_writes_fresh move cands (folder, dest) e he hfresh hnd
  · exact harvest_move_removes cands (folder, dest) e he hfresh hnd
  · exact harvest_copy_keeps_folder cands (folder, dest)

theorem c5_move_vs_copy_witness :
    dlookup
      (harvestDownloads true [⟨"a", 5, false, "x"⟩] [⟨"a", 5, false, "x"⟩] []).2 "a"
      = some "x" :=
  (c5_move_vs_copy true [⟨"a", 5, false, "x"⟩] [⟨"a", 5, false, "x"⟩] []
    ⟨"a", 5, false, "x"⟩ (by decide) rfl (by decide)).1

/-- C6 (confirmed). A harvested candidate whose name already exists in the new
project directory is skipped: the existing destination entry keeps its exact
content through the whole loop, and processing simply continues with the
remaining candidates (the loop body for that candidate is the identity, so
the fold over `c :: rest` equals the fold over `rest`); the loop is total, so
no error is raised. -/
theorem c6_skip_existing_destination (move : Bool) (cands rest folder : List FSEntry)
    (dest : Dir) (c : FSEntry) (hc : c ∈ cands) (v : String)
    (hv : dlookup dest c.name = some v) :
    dlookup (harvestDownloads move cands folder dest).2 c.name = some v ∧
    harvestDownloads move (c :: rest) folder dest =
      harvestDownloads move rest folder dest := by
  constructor
  · exact harvest_preserves_existing move cands (folder, dest) c.name v hv
  · unfold harvestDownloads
    rw [List.foldl_cons, harvestOne_skip move (folder, dest) c (by rw [hv]; rfl)]

theorem c6_skip_existing_destination_witness :
    dlookup
      (harvestDownloads true [⟨"a", 5, false, "new"⟩] [⟨"a", 5, false, "new"⟩]
        [("a", "old")]).2 "a"
      = some "old" :=
  (c6_skip_existing_destination true [⟨"a", 5, false, "new"⟩] [] [⟨"a", 5, false, "new"⟩]
    [("a", "old")] ⟨"a", 5, false, "new"⟩ (by decide) "old" rfl).1

/-! ## Helper lemmas: markdown stub generation -/

theorem str_append_assoc (a b c : String) : a ++ b ++ c = a ++ (b ++ c) := by
  apply String.ext
  simp [String.data_append, List.append_assoc]

theorem pyEndsWith_append_rendu_pdf (s : String) :
    pyEndsWith (s ++ renduSuffixMd) ".pdf" = false := by
  unfold pyEndsWith renduSuffixMd
  rw [String.data_append, List.reverse_append,
    List.take_append_of_le_length (by decide)]
  decide

theorem isPdfName_append_renduSuffixMd (s : String) :
    isPdfName (s ++ renduSuffixMd) = false := by
  unfold isPdfName
  rw [pyEndsWith_append_rendu_pdf]
  exact Bool.and_false _

theorem isPdfName_fallback (n : Nat) :
    isPdfName (fallbackTitle n ++ ".md") = false := by
  have h : fallbackTitle n ++ ".md" = ("project" ++ pad2 n) ++ renduSuffixMd := by
    unfold fallbackTitle
    rw [str_append_assoc]
    congr 1
  rw [h]
  exact isPdfName_append_renduSuffixMd _

theorem pdfFiles_dwrite_notpdf (d : Dir) (n c : String) (h : isPdfName n = false) :
    pdfFiles (dwrite d n c) = pdfFiles d := by
  by_cases hs : (dlookup d n).isSome
  · unfold pdfFiles
    rw [dnames_dwrite_isSome d n c hs]
  · unfold pdfFiles
    rw [dnames_dwrite_none d n c (Option.not_isSome_iff_eq_none.mp hs),
      List.filter_append]
    simp [h]

theorem pdfFiles_stubStep (dateIso : String) (acc : Dir) (p : String) :
    pdfFiles (stubStep dateIso acc p) = pdfFiles acc := by
  unfold stubStep
  split
  · rfl
  · exact pdfFiles_dwrite_notpdf _ _ _ (isPdfName_append_renduSuffixMd _)

theorem pdfFiles_stubFold (dateIso : String) (ps : List String) (acc : Dir) :
    pdfFiles (ps.foldl (stubStep dateIso) acc) = pdfFiles acc := by
  induction ps generalizing acc with
  | nil => rfl
  | cons p qs ih => rw [List.foldl_cons, ih, pdfFiles_stubStep]

theorem stubFold_preserves_existing (dateIso : String) (ps : List String) (acc : Dir)
    (n c : String) (h : dlookup acc n = some c) :
    dlookup (ps.foldl (stubStep dateIso) acc) n = some c := by
  induction ps generalizing acc with
  | nil => exact h
  | cons p qs ih =>
    rw [List.foldl_cons]
    refine ih _ ?_
    unfold stubStep
    split
    · exact h
    · next hmiss =>
      have hne : n ≠ pdfStem p ++ renduSuffixMd := by
        intro he
        apply hmiss
        rw [← he, h]
        rfl
      rw [dlookup_dwrite_ne _ _ _ _ hne]
      exact h

theorem stubFold_stub_present (dateIso : String) (ps : List String) (acc : Dir)
    (p : String) (hp : p ∈ ps) :
    (dlookup (ps.foldl (stubStep dateIso) acc) (pdfStem p ++ renduSuffixMd)).isSome := by
  induction ps generalizing acc with
  | nil => cases hp
  | cons q qs ih =>
    rw [List.foldl_cons]
    rcases List.mem_cons.mp hp with rfl | hin
    · have hpres : (dlookup (stubStep dateIso acc p) (pdfStem p ++ renduSuffixMd)).isSome := by
        unfold stubStep
        split
        · next hsome => exact hsome
        · rw [dlookup_dwrite_self]
          rfl
      obtain ⟨v, hv⟩ := Option.isSome_iff_exists.mp hpres
      rw [stubFold_preserves_existing dateIso qs _ _ v hv]
      rfl
    · exact ih _ hin

theorem stubFold_id_of_present (dateIso : String) (ps : List String) (acc : Dir)
    (h : ∀ p ∈ ps, (dlookup acc (pdfStem p ++ renduSuffixMd)).isSome) :
    ps.foldl (stubStep dateIso) acc = acc := by
  induction ps with
  | nil => rfl
  | cons p qs ih =>
    rw [List.foldl_cons]
    have hstep : stubStep dateIso acc p = acc := by
      unfold stubStep
      rw [if_pos (h p (List.mem_cons_self _ _))]
    rw [hstep]
    exact ih (fun q hq => h q (List.mem_cons_of_mem _ hq))

/-! ## Claims C2, C7 and C8: markdown stub generation -/

/-- C2 counterexample. The claim says re-running stub generation never
overwrites any existing stub, "including the zero-PDF case where the single
fallback stub already exists". In the zero-PDF branch the source calls
`write_text` with no existence check (lines 173-177), so a pre-existing
fallback stub (here written on 2024-01-01) is overwritten by a re-run on the
next day: its content is no longer the original one. -/
theorem c2_fallback_overwrite_cex :
    dlookup
        (create_md_files_for_pdfs 1 "2024-01-02"
          [("project01_rendu_Colin_PROKOPOWICZ.md",
            markdownStub "2024-01-01" "project01_rendu_Colin_PROKOPOWICZ")])
        "project01_rendu_Colin_PROKOPOWICZ.md"
      ≠ some (markdownStub "2024-01-01" "project01_rendu_Colin_PROKOPOWICZ") := by
  decide

/-- C2 (amended: when at least one PDF is present, re-running stub generation
never overwrites or duplicates anything — every pre-existing file keeps its
content; re-running with the same fallback number and date is idempotent on
the directory state in every case; but in the zero-PDF case the single
fallback stub is rewritten unconditionally, so an already existing fallback
stub IS overwritten — observably so when the run date differs). -/
theorem c2_stub_generation_idempotent (fallbackNumber : Nat) (dateIso : String) (dest : Dir) :
    (pdfFiles dest ≠ [] → ∀ n c, dlookup dest n = some c →
      dlookup (create_md_files_for_pdfs fallbackNumber dateIso dest) n = some c) ∧
    create_md_files_for_pdfs fallbackNumber dateIso
        (create_md_files_for_pdfs fallbackNumber dateIso dest)
      = create_md_files_for_pdfs fallbackNumber dateIso dest := by
  constructor
  · intro hne n c h
    unfold create_md_files_for_pdfs
    rw [if_neg (by simpa [List.isEmpty_iff] using hne)]
    exact stubFold_preserves_existing _ _ _ _ _ h
  · by_cases hpdf : pdfFiles dest = []
    · have e1 : create_md_files_for_pdfs fallbackNumber dateIso dest =
          dwrite dest (fallbackTitle fallbackNumber ++ ".md")
            (markdownStub dateIso (fallbackTitle fallbackNumber)) := by
        unfold create_md_files_for_pdfs
        rw [if_pos (by simp [List.isEmpty_iff, hpdf])]
      have hpdf2 : pdfFiles (dwrite dest (fallbackTitle fallbackNumber ++ ".md")
          (markdownStub dateIso (fallbackTitle fallbackNumber))) = [] := by
        rw [pdfFiles_dwrite_notpdf _ _ _ (isPdfName_fallback _)]
        exact hpdf
      rw [e1]
      unfold create_md_files_for_pdfs
      rw [if_pos (by simp [List.isEmpty_iff, hpdf2])]
      exact dwrite_dwrite_same _ _ _
    · have e1 : create_md_files_for_pdfs fallbackNumber dateIso dest =
          (pdfFiles dest).foldl (stubStep dateIso) dest := by
        unfold create_md_files_for_pdfs
        rw [if_neg (by simpa [List.isEmpty_iff] using hpdf)]
      have hpdfEq : pdfFiles ((pdfFiles dest).foldl (stubStep dateIso) dest)
          = pdfFiles dest := pdfFiles_stubFold _ _ _
      rw [e1]
      unfold create_md_files_for_pdfs
      rw [if_neg (by simp [List.isEmpty_iff, hpdfEq, hpdf]), hpdfEq]
      exact stubFold_id_of_present _ _ _
        (fun p hp => stubFold_stub_present dateIso (pdfFiles dest) dest p hp)

theorem c2_stub_generation_idempotent_witness :
    dlookup (create_md_files_for_pdfs 1 "2024-01-01" [("a.pdf", "x")]) "a.pdf"
      = some "x" :=
  (c2_stub_generation_idempotent 1 "2024-01-01" [("a.pdf", "x")]).1 (by decide)
    "a.pdf" "x" rfl

/-- C7 (confirmed). On a destination holding exactly `a.pdf` and `b.pdf` (and
no pre-existing stubs), stub generation creates exactly the two files
`a_rendu_Colin_PROKOPOWICZ.md` and `b_rendu_Colin_PROKOPOWICZ.md`, each with
the fixed template instantiated with the PDF's stem as title and the current
date; the two PDFs are untouched and no other entry exists afterwards. -/
theorem c7_two_pdfs_stub_creation (ca cb dateIso : String) (fallbackNumber : Nat) :
    dlookup (create_md_files_for_pdfs fallbackNumber dateIso (twoPdfDir ca cb)) "a.pdf"
        = some ca ∧
    dlookup (create_md_files_for_pdfs fallbackNumber dateIso (twoPdfDir ca cb)) "b.pdf"
        = some cb ∧
    dlookup (create_md_files_for_pdfs fallbackNumber dateIso (twoPdfDir ca cb))
        "a_rendu_Colin_PROKOPOWICZ.md" = some (markdownStub dateIso "a") ∧
    dlookup (create_md_files_for_pdfs fallbackNumber dateIso (twoPdfDir ca cb))
        "b_rendu_Colin_PROKOPOWICZ.md" = some (markdownStub dateIso "b") ∧
    dnames (create_md_files_for_pdfs fallbackNumber dateIso (twoPdfDir ca cb))
      = ["a.pdf", "b.pdf", "a_rendu_Colin_PROKOPOWICZ.md", "b_rendu_Colin_PROKOPOWICZ.md"] := by
  have hpdfs : pdfFiles (twoPdfDir ca cb) = ["a.pdf", "b.pdf"] := by
    unfold pdfFiles twoPdfDir dnames
    simp only [List.map_cons, List.map_nil]
    decide
  have e1 : create_md_files_for_pdfs fallbackNumber dateIso (twoPdfDir ca cb)
      = ["a.pdf", "b.pdf"].foldl (stubStep dateIso) (twoPdfDir ca cb) := by
    unfold create_md_files_for_pdfs
    rw [hpdfs, if_neg (by decide)]
  have hstemA : pdfStem "a.pdf" = "a" := by decide
  have hmdA : pdfStem "a.pdf" ++ renduSuffixMd = "a_rendu_Colin_PROKOPOWICZ.md" := by decide
  have hlookA : dlookup (twoPdfDir ca cb) "a_rendu_Colin_PROKOPOWICZ.md" = none := by
    unfold twoPdfDir
    simp only [dlookup]
    rw [if_neg (by decide), if_neg (by decide)]
  have stepA : stubStep dateIso (twoPdfDir ca cb) "a.pdf"
      = twoPdfDir ca cb ++ [("a_rendu_Colin_PROKOPOWICZ.md", markdownStub dateIso "a")] := by
    unfold stubStep
    rw [hmdA, hlookA, if_neg (by decide)]
    unfold dwrite
    rw [hlookA, if_neg (by decide), hstemA]
  have hstemB : pdfStem "b.pdf" = "b" := by decide
  have hmdB : pdfStem "b.pdf" ++ renduSuffixMd = "b_rendu_Colin_PROKOPOWICZ.md" := by decide
  have hlookB : dlookup
      (twoPdfDir ca cb ++ [("a_rendu_Colin_PROKOPOWICZ.md", markdownStub dateIso "a")])
      "b_rendu_Colin_PROKOPOWICZ.md" = none := by
    unfold twoPdfDir
    simp only [List.cons_append, List.nil_append, dlookup]
    rw [if_neg (by decide), if_neg (by decide), if_neg (by decide)]
  have stepB : stubStep dateIso
      (twoPdfDir ca cb ++ [("a_rendu_Colin_PROKOPOWICZ.md", markdownStub dateIso "a")])
      "b.pdf"
      = twoPdfDir ca cb
        ++ [("a_rendu_Colin_PROKOPOWICZ.md", markdownStub dateIso "a"),
            ("b_rendu_Colin_PROKOPOWICZ.md", markdownStub dateIso "b")] := by
    unfold stubStep
    rw [hmdB, hlookB, if_neg (by decide)]
    unfold dwrite
    rw [hlookB, if_neg (by decide), hstemB, List.append_assoc]
    rfl
  have efull : create_md_files_for_pdfs fallbackNumber dateIso (twoPdfDir ca cb)
      = twoPdfDir ca cb
        ++ [("a_rendu_Colin_PROKOPOWICZ.md", markdownStub dateIso "a"),
            ("b_rendu_Colin_PROKOPOWICZ.md", markdownStub dateIso "b")] := by
    rw [e1, List.foldl_cons, List.foldl_cons, List.foldl_nil, stepA, stepB]
  rw [efull]
  refine ⟨?_, ?_, ?_, ?_, ?_⟩
  · unfold twoPdfDir
    simp [dlookup]
  · unfold twoPdfDir
    simp [dlookup]
  · unfold twoPdfDir
    simp [dlookup]
  · unfold twoPdfDir
    simp [dlookup]
  · unfold twoPdfDir dnames
    simp only [List.cons_append, List.nil_append, List.map_cons, List.map_nil]

theorem c7_two_pdfs_stub_creation_witness :
    dlookup (create_md_files_for_pdfs 3 "2024-01-01" (twoPdfDir "x" "y"))
        "a_rendu_Colin_PROKOPOWICZ.md" = some (markdownStub "2024-01-01" "a") :=
  (c7_two_pdfs_stub_creation "x" "y" "2024-01-01" 3).2.2.1

/-- C8 (confirmed). With zero PDF files in the destination, stub generation
writes exactly one stub, named `fallbackTitle ++ ".md"` — that is,
`project{NN}_rendu_Colin_PROKOPOWICZ.md` with `NN` the zero-padded fallback
number — whose generated content has as title that same base name (the file
name without the `.md` extension); every other name is untouched. -/
theorem c8_zero_pdfs_fallback (fallbackNumber : Nat) (dateIso : String) (dest : Dir)
    (h : pdfFiles dest = []) :
    dlookup (create_md_files_for_pdfs fallbackNumber dateIso dest)
        (fallbackTitle fallbackNumber ++ ".md")
      = some (markdownStub dateIso (fallbackTitle fallbackNumber)) ∧
    ∀ n, n ≠ fallbackTitle fallbackNumber ++ ".md" →
      dlookup (create_md_files_for_pdfs fallbackNumber dateIso dest) n = dlookup dest n := by
  have e1 : create_md_files_for_pdfs fallbackNumber dateIso dest =
      dwrite dest (fallbackTitle fallbackNumber ++ ".md")
        (markdownStub dateIso (fallbackTitle fallbackNumber)) := by
    unfold create_md_files_for_pdfs
    rw [if_pos (by simp [List.isEmpty_iff, h])]
  rw [e1]
  exact ⟨dlookup_dwrite_self _ _ _, fun n hn => dlookup_dwrite_ne _ _ _ _ hn⟩

theorem c8_zero_pdfs_fallback_witness :
    dlookup (create_md_files_for_pdfs 1 "2024-01-01" [])
        (fallbackTitle 1 ++ ".md")
      = some (markdownStub "2024-01-01" (fallbackTitle 1)) :=
  (c8_zero_pdfs_fallback 1 "2024-01-01" [] rfl).1

/-! ## Helper lemmas: `rendu` -/

theorem exists_prefix_of_isRenduMdName (m : String) (h : isRenduMdName m = true) :
    ∃ p : List Char, m.data = p ++ renduSuffixMd.data := by
  unfold isRenduMdName pyEndsWith at h
  rw [Bool.and_eq_true] at h
  have h2 := h.2
  rw [beq_iff_eq] at h2
  refine ⟨(m.data.reverse.drop renduSuffixMd.data.length).reverse, ?_⟩
  calc m.data = m.data.reverse.reverse := (List.reverse_reverse _).symm
    _ = (m.data.reverse.take renduSuffixMd.data.length
          ++ m.data.reverse.drop renduSuffixMd.data.length).reverse := by
        rw [List.take_append_drop]
    _ = (m.data.reverse.drop renduSuffixMd.data.length).reverse
          ++ (m.data.reverse.take renduSuffixMd.data.length).reverse := by
        rw [List.reverse_append]
    _ = (m.data.reverse.drop renduSuffixMd.data.length).reverse ++ renduSuffixMd.data := by
        rw [h2, List.reverse_reverse]

theorem withSuffixPdf_data (m : String) (p : List Char)
    (hp : m.data = p ++ renduSuffixMd.data) :
    (withSuffixPdf m).data = p ++ (renduSuffixMd.data.take 24 ++ ".pdf".data) := by
  unfold withSuffixPdf
  rw [String.data_append, hp]
  show (p ++ renduSuffixMd.data).take ((p ++ renduSuffixMd.data).length - 3) ++ ".pdf".data
    = p ++ (renduSuffixMd.data.take 24 ++ ".pdf".data)
  rw [← List.append_assoc]
  congr 1
  rw [List.length_append, show renduSuffixMd.data.length = 27 from by decide,
    show p.length + 27 - 3 = p.length + 24 from by omega,
    List.take_append_eq_append_take, List.take_of_length_le (by omega),
    show p.length + 24 - p.length = 24 from by omega]

theorem withSuffixPdf_inj_on_rendu (m m' : String)
    (hm : isRenduMdName m = true) (hm' : isRenduMdName m' = true)
    (h : withSuffixPdf m = withSuffixPdf m') : m = m' := by
  obtain ⟨p, hp⟩ := exists_prefix_of_isRenduMdName m hm
  obtain ⟨q, hq⟩ := exists_prefix_of_isRenduMdName m' hm'
  have hdata : (withSuffixPdf m).data = (withSuffixPdf m').data := by rw [h]
  rw [withSuffixPdf_data m p hp, withSuffixPdf_data m' q hq] at hdata
  have hlen : p.length = q.length := by
    have hL := congrArg List.length hdata
    simp only [List.length_append] at hL
    omega
  have hpq := (List.append_inj hdata hlen).1
  apply String.ext
  rw [hp, hq, hpq]

theorem renduStep_frame (conv : String → Option String) (ow : Bool) (d : Dir)
    (mdName n : String) (hne : withSuffixPdf mdName ≠ n) :
    dlookup (renduStep conv ow d mdName) n = dlookup d n := by
  unfold renduStep
  split
  · split
    · split
      · rw [dlookup_dwrite_ne _ _ _ _ (Ne.symm hne), dlookup_derase_ne _ _ _ (Ne.symm hne)]
      · rw [dlookup_derase_ne _ _ _ (Ne.symm hne)]
    · rfl
  · split
    · rw [dlookup_dwrite_ne _ _ _ _ (Ne.symm hne)]
    · rfl

theorem renduFold_frame (conv : String → Option String) (ow : Bool) (l : List String)
    (d : Dir) (n : String) (h : ∀ m ∈ l, withSuffixPdf m ≠ n) :
    dlookup (l.foldl (renduStep conv ow) d) n = dlookup d n := by
  induction l generalizing d with
  | nil => rfl
  | cons m ms ih =>
    rw [List.foldl_cons, ih _ (fun x hx => h x (List.mem_cons_of_mem _ hx)),
      renduStep_frame _ _ _ _ _ (h m (List.mem_cons_self _ _))]

theorem renduStep_fail_none (conv : String → Option String) (d : Dir) (m : String)
    (hfail : conv m = none) :
    dlookup (renduStep conv true d m) (withSuffixPdf m) = none := by
  unfold renduStep
  split
  · rw [if_pos rfl, hfail]
    exact dlookup_derase_self _ _
  · next hmiss =>
    rw [hfail]
    exact Option.not_isSome_iff_eq_none.mp hmiss

/-! ## Claim C10: `rendu` with `overwrite` deletes before converting -/

/-- C10 (confirmed). With `overwrite = true`, the loop body for a markdown
file whose companion PDF exists unlinks the PDF before invoking pandoc
(line 69); so when the conversion of `m` fails (`conv m = none`, the caught
`CalledProcessError`) the previously existing PDF no longer exists in the
final directory state — the operation is not atomic on error — while the loop
equation shows that the remaining markdown files `l2` are still processed
from the post-failure state. -/
theorem c10_rendu_overwrite_failure (conv : String → Option String) (d : Dir)
    (l1 l2 : List String) (m : String)
    (hnd : (dnames d).Nodup)
    (hsplit : mdFilesOf d = l1 ++ m :: l2)
    (hpdf : (dlookup d (withSuffixPdf m)).isSome)
    (hfail : conv m = none) :
    dlookup (rendu conv true d) (withSuffixPdf m) = none ∧
    rendu conv true d =
      List.foldl (renduStep conv true)
        (renduStep conv true (List.foldl (renduStep conv true) d l1) m) l2 := by
  have hmem : ∀ x ∈ mdFilesOf d, isRenduMdName x = true := fun x hx =>
    List.of_mem_filter hx
  have hndl : (l1 ++ m :: l2).Nodup := by
    rw [← hsplit]
    exact List.Nodup.filter _ hnd
  have hml2 : m ∉ l2 :=
    (List.nodup_cons.mp (List.Nodup.of_append_right hndl)).1
  have hl2 : ∀ x ∈ l2, withSuffixPdf x ≠ withSuffixPdf m := by
    intro x hx heq
    have hxm : x = m := withSuffixPdf_inj_on_rendu x m
      (hmem x (by rw [hsplit]; exact List.mem_append_right _ (List.mem_cons_of_mem _ hx)))
      (hmem m (by rw [hsplit]; exact List.mem_append_right _ (List.mem_cons_self _ _)))
      heq
    exact hml2 (hxm ▸ hx)
  constructor
  · unfold rendu
    rw [hsplit, List.foldl_append, List.foldl_cons,
      renduFold_frame _ _ _ _ _ hl2]
    exact renduStep_fail_none conv _ m hfail
  · unfold rendu
    rw [hsplit, List.foldl_append, List.foldl_cons]

theorem c10_rendu_overwrite_failure_witness :
    dlookup
        (rendu (fun _ => none) true
          [("a_rendu_Colin_PROKOPOWICZ.md", "src"), ("a_rendu_Colin_PROKOPOWICZ.pdf", "old")])
        (withSuffixPdf "a_rendu_Colin_PROKOPOWICZ.md")
      = none :=
  (c10_rendu_overwrite_failure (fun _ => none)
    [("a_rendu_Colin_PROKOPOWICZ.md", "src"), ("a_rendu_Colin_PROKOPOWICZ.pdf", "old")]
    [] [] "a_rendu_Colin_PROKOPOWICZ.md" (by decide) (by decide) (by decide) rfl).1
